import Mathlib

/-!
Verification development for the psychotherapy-note compliance tools
(`therapy_compliance_processor.py`, the single-note tool, and
`compliance_batch_processor.py`, the batch tool).

The PDF patch engine (`fix_pdf` in both tools) is embedded shallowly: the
external PDF library (PyMuPDF) is modelled as an oracle supplying text-search
results, page geometry, generated goal text and re-extracted page text; each
library side effect (redaction, text insertion, pixmap capture, image
insertion, save, close, file removal, rename) is recorded as an explicit
event.  A run of `fix_pdf` is a list of events together with the returned
boolean and a flag recording whether the Python `except` handler fired.
Oracle calls that can raise in Python (text search, the goal-generation LLM
call) return `Except`; the catch-all handler in `fix_pdf` is modelled by
mapping an exception to a normal `false` return that keeps the events emitted
before the exception.

Machine reals (PyMuPDF coordinates, font sizes) are embedded as rationals;
the constants 8.82 and 0.8 of the source appear as 441/50 and 4/5.
-/

/-! ## Character and string utilities

The tools rely on Python string primitives (`in`, `str.replace`, `str.strip`,
`str.split`) and two fixed regular expressions.  They are re-implemented here
by structural recursion on character lists so that every definition reduces
in the kernel. -/

/-- Substring test: `listContains needle hay = true` iff `needle` occurs as a
contiguous infix of `hay` (Python `needle in hay`). -/
def listContains (needle : List Char) : List Char → Bool
  | [] => needle.isEmpty
  | c :: t => needle.isPrefixOf (c :: t) || listContains needle t

/-- Python `needle in hay` on strings. -/
def strContains (hay needle : String) : Bool :=
  listContains needle.toList hay.toList

/-- Replacement of every non-overlapping occurrence of `pat` (left to right).
The counter argument skips the tail of an occurrence that was just replaced,
keeping the recursion structural.  Matches Python `str.replace` for a
non-empty pattern; the tools only replace the non-empty pattern ".pdf". -/
def replaceAux (pat rep : List Char) : Nat → List Char → List Char
  | _, [] => []
  | Nat.succ k, _ :: t => replaceAux pat rep k t
  | 0, c :: t =>
    if pat ≠ [] ∧ pat.isPrefixOf (c :: t) then
      rep ++ replaceAux pat rep (pat.length - 1) t
    else
      c :: replaceAux pat rep 0 t

/-- Python `s.replace(pat, rep)` for non-empty `pat`. -/
def strReplace (s pat rep : String) : String :=
  String.mk (replaceAux pat.toList rep.toList 0 s.toList)

/-- Python `str.strip()` (whitespace on both ends). -/
def strTrim (s : String) : String :=
  String.mk (((s.toList.dropWhile Char.isWhitespace).reverse.dropWhile
    Char.isWhitespace).reverse)

/-- Split a character list at every newline, keeping empty pieces
(Python `s.split('\n')`). -/
def splitNl : List Char → List (List Char)
  | [] => [[]]
  | c :: t =>
    if c = '\n' then [] :: splitNl t
    else
      match splitNl t with
      | h :: r => (c :: h) :: r
      | [] => [[c]]

/-- Python `s.split('\n')` on strings. -/
def splitLines (s : String) : List String :=
  (splitNl s.toList).map String.mk

/-! ## The date regular expression

Both tools use the pattern `\d{2}/\d{2}/\d{4}\s+\d{1,2}:\d{2}\s+[ap]m`
(ASCII digits and whitespace suffice for the documents in scope).  The
pattern is deterministic after noting that `\s+` is always followed by a
character that is not whitespace, so greedy consumption never needs to
backtrack, and `\d{1,2}` needs one step of lookahead for the colon. -/

/-- Consume one ASCII digit. -/
def eatDigit : List Char → Option (List Char)
  | c :: rest => if c.isDigit then some rest else none
  | [] => none

/-- Consume one given character. -/
def eatChar (ch : Char) : List Char → Option (List Char)
  | c :: rest => if c = ch then some rest else none
  | [] => none

/-- Consume one or more whitespace characters, greedily. -/
def eatWs1 : List Char → Option (List Char)
  | c :: rest =>
    if c.isWhitespace then some (rest.dropWhile Char.isWhitespace) else none
  | [] => none

/-- Consume `\d{1,2}` immediately followed by a colon (consuming the colon):
two digits win if a colon follows them, else one digit followed by a colon. -/
def eatHourColon : List Char → Option (List Char)
  | a :: b :: rest =>
    if a.isDigit ∧ b.isDigit then
      match rest with
      | ':' :: rest2 => some rest2
      | _ => none
    else if a.isDigit ∧ b = ':' then some rest
    else none
  | _ => none

/-- Consume exactly `n` ASCII digits. -/
def eatDigits : Nat → List Char → Option (List Char)
  | 0, cs => some cs
  | Nat.succ n, cs => (eatDigit cs).bind (eatDigits n)

/-- Consume the `[ap]` character class. -/
def eatAmPm : List Char → Option (List Char)
  | c :: rest => if c = 'a' ∨ c = 'p' then some rest else none
  | [] => none

/-- Length of the date/time match anchored at the head of `cs`, if any. -/
def matchDateAt (cs : List Char) : Option Nat :=
  ((((((((((eatDigits 2 cs).bind (eatChar '/')).bind (eatDigits 2)).bind
    (eatChar '/')).bind (eatDigits 4)).bind eatWs1).bind
    eatHourColon).bind (eatDigits 2)).bind eatWs1).bind eatAmPm).bind
    (fun r => (eatChar 'm' r).map (fun r2 => cs.length - r2.length))

/-- Leftmost match of the date/time pattern, as the matched characters
(`re.search` semantics). -/
def searchDateAux : List Char → Option (List Char)
  | [] => none
  | c :: rest =>
    match matchDateAt (c :: rest) with
    | some n => some ((c :: rest).take n)
    | none => searchDateAux rest

/-- Python `re.search(date_pattern, s)`, returning the matched text. -/
def searchDate (s : String) : Option String :=
  (searchDateAux s.toList).map String.mk

/-- Whether the page text contains any date/time of the recognized shape
(emptiness of `re.findall(date_pattern, s)` agrees with this). -/
def hasDateFormatMatch (s : String) : Bool :=
  (searchDate s).isSome

/-! ## Data model

Bounding boxes are rectangles in page coordinates (PyMuPDF `fitz.Rect`),
embedded over the rationals.  The analysis record mirrors the JSON object
produced by the analysis collaborator, restricted to the fields that
`fix_pdf` reads; Python `dict.get` defaults (empty string, zero) are the
field values themselves, and Python string truthiness is the emptiness
test. -/

/-- A bounding box `(x0, y0, x1, y1)` in page coordinate space. -/
structure Rect where
  x0 : ℚ
  y0 : ℚ
  x1 : ℚ
  y1 : ℚ
  deriving DecidableEq

/-- One observable side effect of a patch run on the document or the file
system. -/
inductive Ev where
  | openDoc : Ev
  | redact (page : Nat) (r : Rect) : Ev
  | insertText (page : Nat) (x y : ℚ) (text : String) (fontsize : ℚ)
      (fontname : String) : Ev
  | getPixmap (page : Nat) (r : Rect) : Ev
  | insertImage (page : Nat) (r : Rect) : Ev
  | getText (page : Nat) : Ev
  | saveDoc (path : String) : Ev
  | closeDoc : Ev
  | removeFile (path : String) : Ev
  | renameFile (src dst : String) : Ev
  deriving DecidableEq

/-- A computation inside the `try` block of `fix_pdf`: it either finishes
with a value, or an exception escapes; both carry the events emitted so
far. -/
inductive M (α : Type) where
  | ok (evs : List Ev) (val : α) : M α
  | exn (evs : List Ev) : M α

/-- Sequencing inside the `try` block: events concatenate, an exception
aborts the rest. -/
def M.andThen {α β : Type} : M α → (α → M β) → M β
  | .ok evs a, k =>
    match k a with
    | .ok evs2 b => .ok (evs ++ evs2) b
    | .exn evs2 => .exn (evs ++ evs2)
  | .exn evs, _ => .exn evs

/-- Events of a computation, whether it finished or raised. -/
def M.events {α : Type} : M α → List Ev
  | .ok evs _ => evs
  | .exn evs => evs

/-- Environment of one `fix_pdf` call: the behaviour of the PDF library and
of the goal-generation LLM call.  `search_for` and `generateGoals` may raise
(modelling a library or network exception); `pageText0` is the text that
`page.get_text()` re-extracts from page 0 after patching. -/
structure Oracle where
  numPages : Nat
  search_for : Nat → String → Except String (List Rect)
  generateGoals : Except String String
  pageWidth : ℚ
  pageHeight : ℚ
  pageText0 : String

/-- Result of a `fix_pdf` call: the emitted events, the returned boolean,
and whether the catch-all `except` handler fired. -/
structure FixResult where
  events : List Ev
  result : Bool
  raised : Bool
  deriving DecidableEq

/-- Map the `try` block outcome to the Python return value: an exception is
caught and turned into `False`. -/
def runCaught : M Bool → FixResult
  | .ok evs b => ⟨evs, b, false⟩
  | .exn evs => ⟨evs, false, true⟩

/-- Prefix the `fitz.open` event to the body of the `try` block. -/
def withOpen : M Bool → M Bool
  | .ok evs b => .ok (Ev.openDoc :: evs) b
  | .exn evs => .exn (Ev.openDoc :: evs)

/-- The `date_issue` object, restricted to the fields `fix_pdf` reads. -/
structure DateIssue where
  found : Bool
  original_text : String
  replacement_text : String
  deriving DecidableEq

/-- The `cpt_issue` object, restricted to the fields `fix_pdf` reads. -/
structure CptIssue where
  found : Bool
  current_code : String
  correct_code : String
  deriving DecidableEq

/-- The `goals_issue` object, restricted to the fields `fix_pdf` reads. -/
structure GoalsIssue where
  found : Bool
  goals_count : Nat
  deriving DecidableEq

/-- The `supervision_issue` object, restricted to the fields the single-note
tool's `fix_pdf` reads. -/
structure SupervisionIssue where
  found : Bool
  signer_name : String
  signer_credentials : String
  deriving DecidableEq

/-- One analysis produced by the collaborator.  The batch tool ignores
`supervision_issue`. -/
structure Analysis where
  date_issue : DateIssue
  cpt_issue : CptIssue
  goals_issue : GoalsIssue
  supervision_issue : SupervisionIssue
  deriving DecidableEq

/-! ## Patch blocks

Each `fix_pdf` page iteration runs one block per finding kind.  The pure
core of a block consumes the list of boxes the locator returned and yields
the emitted events together with the `fixed` contribution; the wrapper adds
the guards and the (fallible) `page.search_for` call. -/

/-- Fixed 8.82 pt font size used by every insertion except the single-note
tool's date fix (which uses 9 pt). -/
def smallFont : ℚ := 441 / 50

/-- Baseline approximation used by every insertion:
`rect.y0 + rect.height * 0.8`. -/
def baselineY (r : Rect) : ℚ := r.y0 + (r.y1 - r.y0) * (4 / 5)

/-- Padded redaction box of the date fix: 2 pt on every side. -/
def dateRedactRect (r : Rect) : Rect := ⟨r.x0 - 2, r.y0 - 2, r.x1 + 2, r.y1 + 2⟩

/-- Padded redaction box of the CPT fix: 5 pt left, 10 pt right, 2 pt
vertical. -/
def cptRedactRect (r : Rect) : Rect := ⟨r.x0 - 5, r.y0 - 2, r.x1 + 10, r.y1 + 2⟩

/-- Redaction band of the supervision fix: 5 pt left, 250 pt beyond the
right edge, and 25 pt below the top of the located line (two lines). -/
def supRedactRect (r : Rect) : Rect := ⟨r.x0 - 5, r.y0 - 2, r.x1 + 250, r.y0 + 25⟩

/-- Core of the date fix on one page: redact the first located box and
rewrite the new date at its top-left, ignoring every later box. -/
def dateCore (fontsize : ℚ) (p : Nat) (newDate : String) :
    List Rect → List Ev × Bool
  | [] => ([], false)
  | r :: _ =>
    ([Ev.redact p (dateRedactRect r),
      Ev.insertText p r.x0 (baselineY r) newDate fontsize "helv"], true)

/-- Core of the CPT fix on one page (identical in both tools). -/
def cptCore (p : Nat) (correct : String) : List Rect → List Ev × Bool
  | [] => ([], false)
  | r :: _ =>
    ([Ev.redact p (cptRedactRect r),
      Ev.insertText p r.x0 (baselineY r) correct smallFont "helv"], true)

/-- Core of the supervision fix on one page (single-note tool only). -/
def supCore (p : Nat) (signerName signerCreds : String) :
    List Rect → List Ev × Bool
  | [] => ([], false)
  | r :: _ =>
    ([Ev.redact p (supRedactRect r),
      Ev.insertText p r.x0 (baselineY r)
        ("Rendered by: " ++ signerName ++ ", " ++ signerCreds) smallFont
        "Helvetica-BoldOblique"], true)

/-- Run a pure block core on a (fallible) locator result. -/
def liftSearch (res : Except String (List Rect))
    (core : List Rect → List Ev × Bool) : M Bool :=
  match res with
  | .error _ => .exn []
  | .ok insts => match core insts with | (evs, b) => .ok evs b

/-- Date block of one page: extract the date/time substrings from
`original_text` and `replacement_text`, locate the old one, redact and
rewrite.  Regex misses mean no locator call at all. -/
def fixDateOnPage (fontsize : ℚ) (p : Nat) (d : DateIssue) (o : Oracle) :
    M Bool :=
  if d.found then
    match searchDate d.original_text, searchDate d.replacement_text with
    | some oldDate, some newDate =>
      liftSearch (o.search_for p oldDate) (dateCore fontsize p newDate)
    | _, _ => .ok [] false
  else .ok [] false

/-- CPT block of the single-note tool: guarded by non-empty codes that
actually differ. -/
def fixCptTherapyOnPage (p : Nat) (c : CptIssue) (o : Oracle) : M Bool :=
  if c.found then
    if c.current_code ≠ "" ∧ c.correct_code ≠ "" ∧
        c.current_code ≠ c.correct_code then
      liftSearch (o.search_for p c.current_code) (cptCore p c.correct_code)
    else .ok [] false
  else .ok [] false

/-- CPT block of the batch tool: guarded only by a non-empty
`current_code`. -/
def fixCptBatchOnPage (p : Nat) (c : CptIssue) (o : Oracle) : M Bool :=
  if c.found then
    if c.current_code ≠ "" then
      liftSearch (o.search_for p c.current_code) (cptCore p c.correct_code)
    else .ok [] false
  else .ok [] false

/-- Supervision block of the single-note tool. -/
def fixSupOnPage (p : Nat) (s : SupervisionIssue) (o : Oracle) : M Bool :=
  if s.found then
    if s.signer_name ≠ "" ∧ s.signer_credentials ≠ "" then
      liftSearch (o.search_for p "Rendered by:")
        (supCore p s.signer_name s.signer_credentials)
    else .ok [] false
  else .ok [] false

/-! ## Goals block (batch tool only)

The batch tool replaces an under-documented goals section: it locates the
goal header (first of four variants that yields a hit), locates the
"OVERALL PROGNOSIS" anchor, rasterizes the prognosis-to-bottom band, redacts
the goal band, invokes the LLM collaborator for replacement text, writes it
line by line advancing a 13 pt cursor, and re-inserts the rasterized band.
The single-note tool has no goals block at all. -/

/-- Goal header variants tried in order. -/
def goalSearchTerms : List String := ["Goal #1", "Goal 1", "Goal#1", "Goal"]

/-- First term whose search yields a hit, returning the first box of that
hit (the Python loop with `break`). -/
def findFirstRect (search : String → Except String (List Rect)) :
    List String → Except String (Option Rect)
  | [] => .ok none
  | t :: ts =>
    match search t with
    | .error e => .error e
    | .ok (r :: _) => .ok (some r)
    | .ok [] => findFirstRect search ts

/-- Write the generated goal lines: each line with non-blank strip is
inserted at x = 35 and the cursor advances 13 pt; blank lines are skipped
without advancing.  (The source distinguishes header lines from other lines
but inserts both with identical arguments, so one insertion represents both
branches.)  Returns the final cursor and the insertion events. -/
def goalLinesEvents (p : Nat) : ℚ → List String → ℚ × List Ev
  | y, [] => (y, [])
  | y, line :: rest =>
    if strTrim line ≠ "" then
      match goalLinesEvents p (y + 13) rest with
      | (yEnd, evs) =>
        (yEnd, Ev.insertText p 35 y line smallFont "helv" :: evs)
    else goalLinesEvents p y rest

/-- Goals work after both anchors are located: pixmap capture, band
redaction, LLM call (which may raise after the redaction already
happened), line insertion, image re-insertion. -/
def goalsAfterLocate (p : Nat) (o : Oracle) (goalRect prRect : Rect) :
    M Bool :=
  let pixEv := Ev.getPixmap p ⟨0, prRect.y0, o.pageWidth, o.pageHeight⟩
  let redEv := Ev.redact p ⟨0, goalRect.y0 - 5, o.pageWidth, prRect.y0 - 5⟩
  match o.generateGoals with
  | .error _ => .exn [pixEv, redEv]
  | .ok resp =>
    match goalLinesEvents p goalRect.y0 (splitLines (strTrim resp)) with
    | (endY, lineEvs) =>
      .ok (pixEv :: redEv :: (lineEvs ++
        [Ev.insertImage p
          ⟨0, endY + 10, o.pageWidth, endY + 10 + (o.pageHeight - prRect.y0)⟩]))
        true

/-- Dispatch on the prognosis-anchor search result (only its first box is
ever used). -/
def goalsWithPrognosis (p : Nat) (o : Oracle) (goalRect : Rect) :
    List Rect → M Bool
  | [] => .ok [] false
  | prRect :: _ => goalsAfterLocate p o goalRect prRect

/-- Goals block of the batch tool. -/
def fixGoalsOnPage (p : Nat) (g : GoalsIssue) (o : Oracle) : M Bool :=
  if g.found then
    if g.goals_count < 2 then
      match findFirstRect (o.search_for p) goalSearchTerms with
      | .error _ => .exn []
      | .ok none => .ok [] false
      | .ok (some goalRect) =>
        match o.search_for p "OVERALL PROGNOSIS" with
        | .error _ => .exn []
        | .ok insts => goalsWithPrognosis p o goalRect insts
    else .ok [] false
  else .ok [] false

/-! ## Page iteration and the two `fix_pdf` routines -/

/-- One page of the single-note tool: date, CPT, supervision blocks in
order; the page's `fixed` contribution is their disjunction. -/
def pageStepTherapy (a : Analysis) (o : Oracle) (p : Nat) : M Bool :=
  M.andThen (fixDateOnPage 9 p a.date_issue o) fun b1 =>
  M.andThen (fixCptTherapyOnPage p a.cpt_issue o) fun b2 =>
  M.andThen (fixSupOnPage p a.supervision_issue o) fun b3 =>
  .ok [] (b1 || b2 || b3)

/-- One page of the batch tool: date, CPT, goals blocks in order. -/
def pageStepBatch (a : Analysis) (o : Oracle) (p : Nat) : M Bool :=
  M.andThen (fixDateOnPage smallFont p a.date_issue o) fun b1 =>
  M.andThen (fixCptBatchOnPage p a.cpt_issue o) fun b2 =>
  M.andThen (fixGoalsOnPage p a.goals_issue o) fun b3 =>
  .ok [] (b1 || b2 || b3)

/-- The `for page_num in range(len(doc))` loop accumulating `fixed`. -/
def pagesFold (step : Nat → M Bool) : List Nat → Bool → M Bool
  | [], acc => .ok [] acc
  | p :: ps, acc => M.andThen (step p) fun b => pagesFold step ps (acc || b)

/-- Events of the single-note tool's save stage: when something was fixed,
save to a `_TEMP_FIXED` sibling, close, remove the original, rename the
temp over it; otherwise just close. -/
def therapyTailEvs (path : String) (fixed : Bool) : List Ev :=
  if fixed then
    [Ev.saveDoc (strReplace path ".pdf" "_TEMP_FIXED.pdf"), Ev.closeDoc,
     Ev.removeFile path,
     Ev.renameFile (strReplace path ".pdf" "_TEMP_FIXED.pdf") path]
  else [Ev.closeDoc]

/-- Save stage of the single-note tool; it returns the `fixed` flag. -/
def therapyTail (path : String) (fixed : Bool) : M Bool :=
  .ok (therapyTailEvs path fixed) fixed

/-- Verification check of the batch tool on the re-extracted page 0 text:
the flag is cleared only by the concatenated-credential signature.  (The
date `re.findall` of the source is computed and printed but never affects
the flag.) -/
def verificationPassed (pageText : String) : Bool :=
  !(strContains pageText "LCSW" && strContains pageText "LCSWa")

/-- Output path chosen by the batch tool after verification: the flagged
case appends the `NEEDS_REVIEW` marker instead of blocking the save. -/
def batchOutPath (path : String) (o : Oracle) : String :=
  if verificationPassed o.pageText0 then
    strReplace path ".pdf" "_CORRECTED.pdf"
  else strReplace path ".pdf" "_CORRECTED_NEEDS_REVIEW.pdf"

/-- Events of the batch tool's save stage: when something was fixed,
re-extract page 0, verify, save under the chosen name, close; otherwise
just close. -/
def batchTailEvs (path : String) (o : Oracle) (fixed : Bool) : List Ev :=
  if fixed then [Ev.getText 0, Ev.saveDoc (batchOutPath path o), Ev.closeDoc]
  else [Ev.closeDoc]

/-- Save stage of the batch tool; it returns the `fixed` flag. -/
def batchTail (path : String) (o : Oracle) (fixed : Bool) : M Bool :=
  .ok (batchTailEvs path o fixed) fixed

/-- Entry guard of the single-note tool's `fix_pdf` (all four findings). -/
def therapyGuard (a : Analysis) : Bool :=
  a.date_issue.found || a.cpt_issue.found || a.goals_issue.found ||
    a.supervision_issue.found

/-- Entry guard of the batch tool's `fix_pdf` (three findings; the batch
tool has no supervision handling). -/
def batchGuard (a : Analysis) : Bool :=
  a.date_issue.found || a.cpt_issue.found || a.goals_issue.found

/-- The whole page loop of the single-note tool. -/
def pagesRunTherapy (a : Analysis) (o : Oracle) : M Bool :=
  pagesFold (pageStepTherapy a o) (List.range o.numPages) false

/-- The whole page loop of the batch tool. -/
def pagesRunBatch (a : Analysis) (o : Oracle) : M Bool :=
  pagesFold (pageStepBatch a o) (List.range o.numPages) false

/-- `TherapyNoteProcessor.fix_pdf`. -/
def fixPdfTherapy (path : String) (a : Analysis) (o : Oracle) : FixResult :=
  if therapyGuard a then
    runCaught (withOpen (M.andThen (pagesRunTherapy a o) (therapyTail path)))
  else ⟨[], false, false⟩

/-- `ComplianceChecker.fix_pdf`. -/
def fixPdfBatch (path : String) (a : Analysis) (o : Oracle) : FixResult :=
  if batchGuard a then
    runCaught (withOpen (M.andThen (pagesRunBatch a o) (batchTail path o)))
  else ⟨[], false, false⟩

/-! ## Caller slice recording `corrections_made` -/

/-- `needs_fixing` of `TherapyNoteProcessor.process_folder`. -/
def needsFixingTherapy (a : Analysis) : Bool :=
  a.date_issue.found || a.cpt_issue.found ||
    (a.goals_issue.found && decide (a.goals_issue.goals_count < 2)) ||
    a.supervision_issue.found

/-- `needs_fixing` of `ComplianceChecker.process_pdf`. -/
def needsFixingBatch (a : Analysis) : Bool :=
  a.date_issue.found || a.cpt_issue.found ||
    (a.goals_issue.found && decide (a.goals_issue.goals_count < 2))

/-- The `corrections_made` value the single-note tool records for a
document. -/
def correctionsMadeTherapy (path : String) (a : Analysis) (o : Oracle) :
    Bool :=
  if needsFixingTherapy a then (fixPdfTherapy path a o).result else false

/-- The `corrections_made` value the batch tool records for a document. -/
def correctionsMadeBatch (path : String) (a : Analysis) (o : Oracle) :
    Bool :=
  if needsFixingBatch a then (fixPdfBatch path a o).result else false

/-! ## File-system model

Only the save/remove/rename events touch the file system; a file system is
a map from paths to an abstract content, where a `saveDoc` writes the
patched document (marker "patched"). -/

/-- Effect of one event on the file system. -/
def fsStep (fs : String → Option String) : Ev → (String → Option String)
  | .saveDoc p => fun q => if q = p then some "patched" else fs q
  | .removeFile p => fun q => if q = p then none else fs q
  | .renameFile src dst =>
    fun q => if q = dst then fs src else if q = src then none else fs q
  | _ => fs

/-- Effect of an event sequence on the file system. -/
def applyEvents (fs : String → Option String) (evs : List Ev) :
    String → Option String :=
  evs.foldl fsStep fs

/-! ## CPT duration-to-code rule

Both analysis prompts state the mapping from session duration to the
correct CPT code; the rule below is embedded from the prompt text
(`compliance_batch_processor.py` lines 123 to 129 and
`therapy_compliance_processor.py` lines 210 to 219). -/

/-- Follow-up visit rule shared by both prompts: 16 to 37 minutes is 90832,
38 to 52 minutes is 90834, 53 minutes or more is 90837. -/
def followUpDurationCode (d : Nat) : Option Nat :=
  if 16 ≤ d ∧ d ≤ 37 then some 90832
  else if 38 ≤ d ∧ d ≤ 52 then some 90834
  else if 53 ≤ d then some 90837
  else none

/-- Single-note tool prompt: an initial visit of 53 minutes or more is
90791; follow-ups use the duration table. -/
def therapyCorrectCode (isInitialVisit : Bool) (d : Nat) : Option Nat :=
  if isInitialVisit then
    if 53 ≤ d then some 90791 else none
  else followUpDurationCode d

/-- Batch tool prompt: an initial visit is always 90791 regardless of
duration; follow-ups use the duration table. -/
def batchCorrectCode (isInitialVisit : Bool) (d : Nat) : Option Nat :=
  if isInitialVisit then some 90791
  else followUpDurationCode d

/-! ## Structured-response parsing (`analyze_with_ai` tail)

`json.loads` of the Python standard library is modelled by a strict
recursive-descent JSON parser (objects, arrays, strings with escapes,
numbers, literals, and the `NaN`/`Infinity` extensions Python accepts);
number values are kept as their lexemes, which is enough because the
callers only branch on parse success.  Recursion is by a fuel argument
bounded by the input length so everything reduces in the kernel. -/

/-- Opening brace character (written by code so that it can never be read
as a delimiter). -/
def lbrace : Char := Char.ofNat 123

/-- Closing brace character. -/
def rbrace : Char := Char.ofNat 125

/-- A parsed JSON value; numbers keep their lexeme. -/
inductive JsonVal where
  | null : JsonVal
  | bool (b : Bool) : JsonVal
  | num (lexeme : String) : JsonVal
  | str (s : String) : JsonVal
  | arr (elems : List JsonVal) : JsonVal
  | obj (fields : List (String × JsonVal)) : JsonVal

/-- JSON inter-token whitespace (space, tab, newline, carriage return). -/
def jsonWs (c : Char) : Bool := c = ' ' || c = '\t' || c = '\n' || c = '\r'

/-- Skip inter-token whitespace. -/
def skipJsonWs (cs : List Char) : List Char := cs.dropWhile jsonWs

/-- Value of one hexadecimal digit. -/
def hexVal (c : Char) : Option Nat :=
  if c.isDigit then some (c.toNat - 48)
  else if decide (97 ≤ c.toNat) && decide (c.toNat ≤ 102) then
    some (c.toNat - 87)
  else if decide (65 ≤ c.toNat) && decide (c.toNat ≤ 70) then
    some (c.toNat - 55)
  else none

/-- Single-character escapes of JSON strings. -/
def escChar (e : Char) : Option Char :=
  if e = '"' then some '"'
  else if e = '\\' then some '\\'
  else if e = '/' then some '/'
  else if e = 'b' then some (Char.ofNat 8)
  else if e = 'f' then some (Char.ofNat 12)
  else if e = 'n' then some '\n'
  else if e = 'r' then some '\r'
  else if e = 't' then some '\t'
  else none

/-- Body of a JSON string after the opening quote: decoded characters and
the input after the closing quote.  Unescaped control characters are
rejected (the `strict=True` default of `json.loads`); `\u` escapes map
through `Char.ofNat` (surrogate pairing is not modelled). -/
def parseStringBody : List Char → Option (List Char × List Char)
  | [] => none
  | c :: rest =>
    if c = '"' then some ([], rest)
    else if c = '\\' then
      match rest with
      | 'u' :: h1 :: h2 :: h3 :: h4 :: rest2 =>
        (match hexVal h1, hexVal h2, hexVal h3, hexVal h4 with
        | some a, some b, some c2, some d =>
          (parseStringBody rest2).map fun r =>
            (Char.ofNat (((a * 16 + b) * 16 + c2) * 16 + d) :: r.1, r.2)
        | _, _, _, _ => none)
      | e :: rest2 =>
        (match escChar e with
        | some ch => (parseStringBody rest2).map fun r => (ch :: r.1, r.2)
        | none => none)
      | [] => none
    else if decide (c.toNat < 32) then none
    else (parseStringBody rest).map fun r => (c :: r.1, r.2)

/-- Leading run of ASCII digits and the rest. -/
def digitsPrefix : List Char → List Char × List Char
  | [] => ([], [])
  | c :: t =>
    if c.isDigit then
      match digitsPrefix t with
      | (ds, r) => (c :: ds, r)
    else ([], c :: t)

/-- Integer part of a JSON number: a bare zero or a nonzero digit followed
by digits. -/
def parseIntPart : List Char → Option (List Char × List Char)
  | [] => none
  | c :: t =>
    if c = '0' then some (['0'], t)
    else if c.isDigit then
      match digitsPrefix t with
      | (ds, r) => some (c :: ds, r)
    else none

/-- Optional fraction part; an ill-formed fraction is left unconsumed (the
top level then fails on the leftover input, as `json.loads` fails). -/
def parseFracPart (cs : List Char) : List Char × List Char :=
  match cs with
  | '.' :: t =>
    (match digitsPrefix t with
    | ([], _) => ([], cs)
    | (ds, r) => ('.' :: ds, r))
  | _ => ([], cs)

/-- Optional exponent part, same convention as the fraction part. -/
def parseExpPart (cs : List Char) : List Char × List Char :=
  match cs with
  | c :: t =>
    if c = 'e' ∨ c = 'E' then
      match t with
      | s :: t2 =>
        if s = '+' ∨ s = '-' then
          (match digitsPrefix t2 with
          | ([], _) => ([], cs)
          | (ds, r) => (c :: s :: ds, r))
        else
          (match digitsPrefix t with
          | ([], _) => ([], cs)
          | (ds, r) => (c :: ds, r))
      | [] => ([], cs)
    else ([], cs)
  | [] => ([], cs)

/-- A JSON number lexeme at the head of the input. -/
def parseNumber (cs : List Char) : Option (List Char × List Char) :=
  match cs with
  | '-' :: t =>
    (match parseIntPart t with
    | none => none
    | some (ip, cs2) =>
      match parseFracPart cs2 with
      | (fp, cs3) =>
        match parseExpPart cs3 with
        | (ep, cs4) => some ('-' :: (ip ++ fp ++ ep), cs4))
  | _ =>
    match parseIntPart cs with
    | none => none
    | some (ip, cs2) =>
      match parseFracPart cs2 with
      | (fp, cs3) =>
        match parseExpPart cs3 with
        | (ep, cs4) => some (ip ++ fp ++ ep, cs4)

mutual

/-- A JSON value at the head of the input (after skipping whitespace). -/
def parseValue : Nat → List Char → Option (JsonVal × List Char)
  | 0, _ => none
  | Nat.succ fuel, cs0 =>
    let cs := skipJsonWs cs0
    if List.isPrefixOf ['t', 'r', 'u', 'e'] cs then
      some (.bool true, cs.drop 4)
    else if List.isPrefixOf ['f', 'a', 'l', 's', 'e'] cs then
      some (.bool false, cs.drop 5)
    else if List.isPrefixOf ['n', 'u', 'l', 'l'] cs then
      some (.null, cs.drop 4)
    else if List.isPrefixOf ['N', 'a', 'N'] cs then
      some (.num "NaN", cs.drop 3)
    else if List.isPrefixOf ['I', 'n', 'f', 'i', 'n', 'i', 't', 'y'] cs then
      some (.num "Infinity", cs.drop 8)
    else if List.isPrefixOf ['-', 'I', 'n', 'f', 'i', 'n', 'i', 't', 'y'] cs
      then some (.num "-Infinity", cs.drop 9)
    else
      match cs with
      | [] => none
      | c :: rest =>
        if c = '"' then
          (parseStringBody rest).map fun r => (JsonVal.str (String.mk r.1), r.2)
        else if c = lbrace then parseObjBody fuel rest
        else if c = '[' then parseArrBody fuel rest
        else (parseNumber cs).map fun r => (JsonVal.num (String.mk r.1), r.2)

/-- Object body after the opening brace: empty object or members. -/
def parseObjBody : Nat → List Char → Option (JsonVal × List Char)
  | 0, _ => none
  | Nat.succ fuel, cs0 =>
    let cs := skipJsonWs cs0
    match cs with
    | [] => none
    | c :: rest =>
      if c = rbrace then some (.obj [], rest)
      else parseMembers fuel (c :: rest) []

/-- One `"key": value` member and then either a comma and more members or
the closing brace. -/
def parseMembers : Nat → List Char → List (String × JsonVal) →
    Option (JsonVal × List Char)
  | 0, _, _ => none
  | Nat.succ fuel, cs0, acc =>
    match skipJsonWs cs0 with
    | '"' :: rest =>
      (match parseStringBody rest with
      | none => none
      | some (key, rest2) =>
        match skipJsonWs rest2 with
        | ':' :: rest3 =>
          (match parseValue fuel rest3 with
          | none => none
          | some (v, rest4) =>
            let acc2 := acc ++ [(String.mk key, v)]
            match skipJsonWs rest4 with
            | ',' :: rest5 => parseMembers fuel rest5 acc2
            | c :: rest5 =>
              if c = rbrace then some (.obj acc2, rest5) else none
            | [] => none)
        | _ => none)
    | _ => none

/-- Array body after the opening bracket: empty array or elements. -/
def parseArrBody : Nat → List Char → Option (JsonVal × List Char)
  | 0, _ => none
  | Nat.succ fuel, cs0 =>
    match skipJsonWs cs0 with
    | ']' :: rest => some (.arr [], rest)
    | cs => parseElems fuel cs []

/-- One array element and then either a comma and more elements or the
closing bracket. -/
def parseElems : Nat → List Char → List JsonVal →
    Option (JsonVal × List Char)
  | 0, _, _ => none
  | Nat.succ fuel, cs0, acc =>
    match parseValue fuel cs0 with
    | none => none
    | some (v, rest) =>
      let acc2 := acc ++ [v]
      match skipJsonWs rest with
      | ',' :: rest2 => parseElems fuel rest2 acc2
      | ']' :: rest2 => some (.arr acc2, rest2)
      | _ => none

end

/-- Python `json.loads`: a full JSON document with nothing but whitespace
after it. -/
def jsonLoads (s : String) : Except String JsonVal :=
  match parseValue (s.toList.length + 8) s.toList with
  | some (v, rest) =>
    if skipJsonWs rest = [] then .ok v else .error "Extra data"
  | none => .error "Expecting value"

/-- Python `re.search(braced_pattern, content, re.DOTALL)` for the pattern
matching an opening brace, any characters, and a closing brace: the span
from the first opening brace to the last closing brace, when the latter
comes after the former. -/
def extractBraced (s : String) : Option String :=
  let cs := s.toList
  match cs.findIdx? (fun c => c = lbrace) with
  | none => none
  | some i =>
    match cs.reverse.findIdx? (fun c => c = rbrace) with
    | none => none
    | some rj =>
      let j := cs.length - 1 - rj
      if i ≤ j then some (String.mk ((cs.drop i).take (j - i + 1)))
      else none

/-- Outcome of the response-parsing tail of `analyze_with_ai`: a parsed
value returned to the caller, the explicit parse-error record, or a
`json.JSONDecodeError` escaping to the caller. -/
inductive ParseOutcome where
  | parsed (v : JsonVal) : ParseOutcome
  | parseErrorResult : ParseOutcome
  | raisedJSONDecodeError : ParseOutcome

/-- Whether the outcome is an escaping exception. -/
def ParseOutcome.isRaised : ParseOutcome → Bool
  | .raisedJSONDecodeError => true
  | _ => false

/-- The response-parsing tail of `analyze_with_ai` (identical in both
tools): strict parse, then one brace-fragment extraction whose own
`json.loads` is not inside any handler. -/
def parseAnalysisResponse (content : String) : ParseOutcome :=
  match jsonLoads content with
  | .ok v => .parsed v
  | .error _ =>
    match extractBraced content with
    | some frag =>
      (match jsonLoads frag with
      | .ok v => .parsed v
      | .error _ => .raisedJSONDecodeError)
    | none => .parseErrorResult

/-! ## Concrete sample inputs

Shared by the closed witness and counterexample theorems below. -/

/-- A sample located bounding box. -/
def box1 : Rect := ⟨100, 200, 130, 210⟩

/-- Oracle answering every search for `needle` with `box1` and every other
search with no hit; one page, benign page 0 text. -/
def oracleHit (needle : String) : Oracle :=
  { numPages := 1
    search_for := fun _ s => .ok (if s = needle then [box1] else [])
    generateGoals := .ok ""
    pageWidth := 612
    pageHeight := 792
    pageText0 := "all good here" }

/-- Oracle whose every text search raises. -/
def oracleErr : Oracle :=
  { numPages := 1
    search_for := fun _ _ => .error "boom"
    generateGoals := .ok ""
    pageWidth := 612
    pageHeight := 792
    pageText0 := "" }

/-- Analysis with a CPT finding whose current and correct codes coincide
and no other finding. -/
def cptEqualAnalysis : Analysis :=
  { date_issue := ⟨false, "", ""⟩
    cpt_issue := ⟨true, "90834", "90834"⟩
    goals_issue := ⟨false, 0⟩
    supervision_issue := ⟨false, "", ""⟩ }

/-- Analysis with only a date finding. -/
def dateOnlyAnalysis : Analysis :=
  { date_issue := ⟨true, "signed at 07/02/2025 11:10 am",
      "signed at 07/07/2025 11:10 am"⟩
    cpt_issue := ⟨false, "", ""⟩
    goals_issue := ⟨false, 0⟩
    supervision_issue := ⟨false, "", ""⟩ }

/-- Analysis with no finding at all. -/
def allFalseAnalysis : Analysis :=
  { date_issue := ⟨false, "", ""⟩
    cpt_issue := ⟨false, "", ""⟩
    goals_issue := ⟨false, 0⟩
    supervision_issue := ⟨false, "", ""⟩ }

/-- Analysis with only a goals finding (one goal documented). -/
def goalsOnlyAnalysis : Analysis :=
  { date_issue := ⟨false, "", ""⟩
    cpt_issue := ⟨false, "", ""⟩
    goals_issue := ⟨true, 1⟩
    supervision_issue := ⟨false, "", ""⟩ }

/-- File system holding only the original document at `note.pdf`. -/
def fsOriginal : String → Option String :=
  fun q => if q = "note.pdf" then some "original" else none

/-! ## Helper lemmas on the run monad -/

theorem andThen_exn {α β : Type} (evs : List Ev) (k : α → M β) :
    M.andThen (.exn evs) k = .exn evs := rfl

theorem andThen_ok_of {α β : Type} {k : α → M β} (evs : List Ev) (a : α)
    {e2 : List Ev} {b : β} (hk : k a = .ok e2 b) :
    M.andThen (.ok evs a) k = .ok (evs ++ e2) b := by
  simp [M.andThen, hk]

theorem andThen_ok_elim {α β : Type} {x : M α} {k : α → M β}
    {evs : List Ev} {b : β} (h : M.andThen x k = .ok evs b) :
    ∃ e1 a e2, x = .ok e1 a ∧ k a = .ok e2 b ∧ evs = e1 ++ e2 := by
  cases x with
  | exn e => simp [M.andThen] at h
  | ok e a =>
    cases hk : k a with
    | ok e2 b2 =>
      simp only [M.andThen, hk] at h
      cases h
      exact ⟨e, a, e2, rfl, hk, rfl⟩
    | exn e2 =>
      simp only [M.andThen, hk] at h
      exact M.noConfusion h

/-- Classification of events emitted inside the page loop. -/
def Ev.isPageOp : Ev → Bool
  | .redact _ _ => true
  | .insertText _ _ _ _ _ _ => true
  | .getPixmap _ _ => true
  | .insertImage _ _ => true
  | _ => false

/-- All events of a list are in-page operations. -/
def pageOnly (evs : List Ev) : Prop := ∀ e ∈ evs, e.isPageOp = true

theorem pageOnly_nil : pageOnly [] := by intro e he; cases he

theorem pageOnly_append {l1 l2 : List Ev} (h1 : pageOnly l1)
    (h2 : pageOnly l2) : pageOnly (l1 ++ l2) := by
  intro e he
  rcases List.mem_append.mp he with h | h
  · exact h1 e h
  · exact h2 e h

theorem dateCore_pageOnly (f : ℚ) (p : Nat) (s : String) (l : List Rect) :
    pageOnly (dateCore f p s l).1 := by
  cases l with
  | nil => exact pageOnly_nil
  | cons r t =>
    intro e he
    rcases List.mem_cons.mp he with h | h
    · subst h; rfl
    · rcases List.mem_singleton.mp h with h2
      subst h2; rfl

theorem cptCore_pageOnly (p : Nat) (s : String) (l : List Rect) :
    pageOnly (cptCore p s l).1 := by
  cases l with
  | nil => exact pageOnly_nil
  | cons r t =>
    intro e he
    rcases List.mem_cons.mp he with h | h
    · subst h; rfl
    · rcases List.mem_singleton.mp h with h2
      subst h2; rfl

theorem supCore_pageOnly (p : Nat) (n c : String) (l : List Rect) :
    pageOnly (supCore p n c l).1 := by
  cases l with
  | nil => exact pageOnly_nil
  | cons r t =>
    intro e he
    rcases List.mem_cons.mp he with h | h
    · subst h; rfl
    · rcases List.mem_singleton.mp h with h2
      subst h2; rfl

theorem liftSearch_pageOnly (res : Except String (List Rect))
    (core : List Rect → List Ev × Bool) (h : ∀ l, pageOnly (core l).1) :
    pageOnly (liftSearch res core).events := by
  cases res with
  | error e => exact pageOnly_nil
  | ok insts =>
    have h2 := h insts
    cases hc : core insts with
    | mk evs b =>
      rw [hc] at h2
      simpa [liftSearch, hc, M.events] using h2

theorem fixDateOnPage_pageOnly (f : ℚ) (p : Nat) (d : DateIssue)
    (o : Oracle) : pageOnly (fixDateOnPage f p d o).events := by
  unfold fixDateOnPage
  split
  · split
    · exact liftSearch_pageOnly _ _ (dateCore_pageOnly f p _)
    · exact pageOnly_nil
  · exact pageOnly_nil

theorem fixCptTherapyOnPage_pageOnly (p : Nat) (c : CptIssue) (o : Oracle) :
    pageOnly (fixCptTherapyOnPage p c o).events := by
  unfold fixCptTherapyOnPage
  split
  · split
    · exact liftSearch_pageOnly _ _ (cptCore_pageOnly p _)
    · exact pageOnly_nil
  · exact pageOnly_nil

theorem fixCptBatchOnPage_pageOnly (p : Nat) (c : CptIssue) (o : Oracle) :
    pageOnly (fixCptBatchOnPage p c o).events := by
  unfold fixCptBatchOnPage
  split
  · split
    · exact liftSearch_pageOnly _ _ (cptCore_pageOnly p _)
    · exact pageOnly_nil
  · exact pageOnly_nil

theorem fixSupOnPage_pageOnly (p : Nat) (s : SupervisionIssue) (o : Oracle) :
    pageOnly (fixSupOnPage p s o).events := by
  unfold fixSupOnPage
  split
  · split
    · exact liftSearch_pageOnly _ _ (supCore_pageOnly p _ _)
    · exact pageOnly_nil
  · exact pageOnly_nil

theorem goalLinesEvents_pageOnly (p : Nat) (ls : List String) :
    ∀ y : ℚ, pageOnly (goalLinesEvents p y ls).2 := by
  induction ls with
  | nil => intro y; exact pageOnly_nil
  | cons l rest ih =>
    intro y
    by_cases h : strTrim l ≠ ""
    · have ih2 := ih (y + 13)
      cases hg : goalLinesEvents p (y + 13) rest with
      | mk yEnd evs =>
        rw [hg] at ih2
        simp only [goalLinesEvents, if_pos h, hg]
        intro e he
        rcases List.mem_cons.mp he with h2 | h2
        · subst h2; rfl
        · exact ih2 e h2
    · simpa [goalLinesEvents, h] using ih y

theorem goalsAfterLocate_pageOnly (p : Nat) (o : Oracle)
    (goalRect prRect : Rect) :
    pageOnly (goalsAfterLocate p o goalRect prRect).events := by
  unfold goalsAfterLocate
  cases hg : o.generateGoals with
  | error e =>
    intro e he
    rcases List.mem_cons.mp he with h | h
    · subst h; rfl
    · rcases List.mem_singleton.mp h with h2
      subst h2; rfl
  | ok resp =>
    have hl := goalLinesEvents_pageOnly p
      (splitLines (strTrim resp)) goalRect.y0
    cases hle : goalLinesEvents p goalRect.y0 (splitLines (strTrim resp)) with
    | mk endY lineEvs =>
      rw [hle] at hl
      simp only [hle, M.events]
      intro e he
      rcases List.mem_cons.mp he with h | h
      · subst h; rfl
      · rcases List.mem_cons.mp h with h2 | h2
        · subst h2; rfl
        · rcases List.mem_append.mp h2 with h3 | h3
          · exact hl e h3
          · rcases List.mem_singleton.mp h3 with h4
            subst h4; rfl

theorem goalsWithPrognosis_pageOnly (p : Nat) (o : Oracle) (g : Rect)
    (l : List Rect) : pageOnly (goalsWithPrognosis p o g l).events := by
  cases l with
  | nil => exact pageOnly_nil
  | cons r t => exact goalsAfterLocate_pageOnly p o g r

theorem fixGoalsOnPage_pageOnly (p : Nat) (g : GoalsIssue) (o : Oracle) :
    pageOnly (fixGoalsOnPage p g o).events := by
  unfold fixGoalsOnPage
  split
  · split
    · split
      · exact pageOnly_nil
      · exact pageOnly_nil
      · split
        · exact pageOnly_nil
        · exact goalsWithPrognosis_pageOnly _ _ _ _
    · exact pageOnly_nil
  · exact pageOnly_nil

theorem andThen_pageOnly {α β : Type} {x : M α} {k : α → M β}
    (hx : pageOnly x.events) (hk : ∀ a, pageOnly (k a).events) :
    pageOnly (M.andThen x k).events := by
  cases x with
  | exn e => exact hx
  | ok e a =>
    have hk2 := hk a
    cases hka : k a with
    | ok e2 b =>
      rw [hka] at hk2
      simp only [M.andThen, hka, M.events]
      exact pageOnly_append hx hk2
    | exn e2 =>
      rw [hka] at hk2
      simp only [M.andThen, hka, M.events]
      exact pageOnly_append hx hk2

theorem pageStepTherapy_pageOnly (a : Analysis) (o : Oracle) (p : Nat) :
    pageOnly (pageStepTherapy a o p).events := by
  unfold pageStepTherapy
  refine andThen_pageOnly (fixDateOnPage_pageOnly _ _ _ _) fun b1 => ?_
  refine andThen_pageOnly (fixCptTherapyOnPage_pageOnly _ _ _) fun b2 => ?_
  exact andThen_pageOnly (fixSupOnPage_pageOnly _ _ _) fun b3 => pageOnly_nil

theorem pageStepBatch_pageOnly (a : Analysis) (o : Oracle) (p : Nat) :
    pageOnly (pageStepBatch a o p).events := by
  unfold pageStepBatch
  refine andThen_pageOnly (fixDateOnPage_pageOnly _ _ _ _) fun b1 => ?_
  refine andThen_pageOnly (fixCptBatchOnPage_pageOnly _ _ _) fun b2 => ?_
  exact andThen_pageOnly (fixGoalsOnPage_pageOnly _ _ _) fun b3 => pageOnly_nil

theorem pagesFold_pageOnly {step : Nat → M Bool}
    (h : ∀ p, pageOnly (step p).events) :
    ∀ (ps : List Nat) (acc : Bool), pageOnly (pagesFold step ps acc).events := by
  intro ps
  induction ps with
  | nil => intro acc; exact pageOnly_nil
  | cons p ps ih =>
    intro acc
    exact andThen_pageOnly (h p) fun b => ih (acc || b)

theorem pagesRunTherapy_pageOnly (a : Analysis) (o : Oracle) :
    pageOnly (pagesRunTherapy a o).events :=
  pagesFold_pageOnly (pageStepTherapy_pageOnly a o) _ _

theorem pagesRunBatch_pageOnly (a : Analysis) (o : Oracle) :
    pageOnly (pagesRunBatch a o).events :=
  pagesFold_pageOnly (pageStepBatch_pageOnly a o) _ _

theorem fixPdfTherapy_of_pages_ok {a : Analysis} {o : Oracle}
    {evsP : List Ev} {v : Bool} (path : String)
    (hg : therapyGuard a = true) (h : pagesRunTherapy a o = .ok evsP v) :
    fixPdfTherapy path a o =
      ⟨Ev.openDoc :: (evsP ++ therapyTailEvs path v), v, false⟩ := by
  simp [fixPdfTherapy, hg, h, M.andThen, therapyTail, withOpen, runCaught]

theorem fixPdfTherapy_of_pages_exn {a : Analysis} {o : Oracle}
    {evsP : List Ev} (path : String)
    (hg : therapyGuard a = true) (h : pagesRunTherapy a o = .exn evsP) :
    fixPdfTherapy path a o = ⟨Ev.openDoc :: evsP, false, true⟩ := by
  simp [fixPdfTherapy, hg, h, M.andThen, withOpen, runCaught]

theorem fixPdfBatch_of_pages_ok {a : Analysis} {o : Oracle}
    {evsP : List Ev} {v : Bool} (path : String)
    (hg : batchGuard a = true) (h : pagesRunBatch a o = .ok evsP v) :
    fixPdfBatch path a o =
      ⟨Ev.openDoc :: (evsP ++ batchTailEvs path o v), v, false⟩ := by
  simp [fixPdfBatch, hg, h, M.andThen, batchTail, withOpen, runCaught]

theorem fixPdfBatch_of_pages_exn {a : Analysis} {o : Oracle}
    {evsP : List Ev} (path : String)
    (hg : batchGuard a = true) (h : pagesRunBatch a o = .exn evsP) :
    fixPdfBatch path a o = ⟨Ev.openDoc :: evsP, false, true⟩ := by
  simp [fixPdfBatch, hg, h, M.andThen, withOpen, runCaught]

/-! ## File-system lemmas -/

theorem fsStep_of_pageOp (fs : String → Option String) (e : Ev)
    (h : e.isPageOp = true) : fsStep fs e = fs := by
  cases e <;> first
    | rfl
    | exact absurd h (by intro hc; exact Bool.noConfusion hc)

theorem applyEvents_append (fs : String → Option String) (l1 l2 : List Ev) :
    applyEvents fs (l1 ++ l2) = applyEvents (applyEvents fs l1) l2 :=
  List.foldl_append _ _ _ _

theorem applyEvents_pageOnly (fs : String → Option String) {evs : List Ev}
    (h : pageOnly evs) : applyEvents fs evs = fs := by
  induction evs generalizing fs with
  | nil => rfl
  | cons e t ih =>
    have he := h e (List.mem_cons_self e t)
    have ht : pageOnly t := fun e2 h2 => h e2 (List.mem_cons_of_mem e h2)
    show applyEvents (fsStep fs e) t = fs
    rw [fsStep_of_pageOp fs e he]
    exact ih fs ht

theorem pagesFold_skip {step : Nat → M Bool}
    (h : ∀ p, step p = .ok [] false) :
    ∀ (ps : List Nat) (acc : Bool), pagesFold step ps acc = .ok [] acc := by
  intro ps
  induction ps with
  | nil => intro acc; rfl
  | cons p ps ih =>
    intro acc
    show M.andThen (step p) (fun b => pagesFold step ps (acc || b)) = .ok [] acc
    rw [h p]
    have hk : pagesFold step ps (acc || false) = .ok [] acc := by
      rw [Bool.or_false]; exact ih acc
    simpa using andThen_ok_of [] false hk

/-! ## Claim C6 -/

/-- C6: in the CPT rule of both tools, a follow-up visit of duration d is
coded 90832 exactly when 16 ≤ d ≤ 37, 90834 exactly when 38 ≤ d ≤ 52 and
90837 exactly when d ≥ 53; an initial visit with d ≥ 53 is coded 90791 in
both tools, independently of the follow-up table (the batch rule gives
90791 for every initial visit). -/
theorem c6_cpt_duration_table : ∀ d : Nat,
    (therapyCorrectCode false d = some 90832 ↔ 16 ≤ d ∧ d ≤ 37) ∧
    (therapyCorrectCode false d = some 90834 ↔ 38 ≤ d ∧ d ≤ 52) ∧
    (therapyCorrectCode false d = some 90837 ↔ 53 ≤ d) ∧
    batchCorrectCode false d = therapyCorrectCode false d ∧
    (53 ≤ d → therapyCorrectCode true d = some 90791) ∧
    batchCorrectCode true d = some 90791 := by
  intro d
  refine ⟨?_, ?_, ?_, rfl, ?_, rfl⟩
  · show followUpDurationCode d = some 90832 ↔ 16 ≤ d ∧ d ≤ 37
    unfold followUpDurationCode
    split_ifs with h1 h2 h3 <;> simp_all
  · show followUpDurationCode d = some 90834 ↔ 38 ≤ d ∧ d ≤ 52
    unfold followUpDurationCode
    split_ifs with h1 h2 h3 <;> simp_all
    omega
  · show followUpDurationCode d = some 90837 ↔ 53 ≤ d
    unfold followUpDurationCode
    split_ifs with h1 h2 h3 <;> simp_all <;> omega
  · intro h
    show (if 53 ≤ d then some 90791 else none) = some 90791
    rw [if_pos h]

theorem c6_cpt_duration_table_witness :
    therapyCorrectCode false 20 = some 90832 ∧
    therapyCorrectCode false 45 = some 90834 ∧
    therapyCorrectCode false 60 = some 90837 ∧
    therapyCorrectCode true 60 = some 90791 ∧
    batchCorrectCode true 60 = some 90791 :=
  ⟨(c6_cpt_duration_table 20).1.mpr (by omega),
   (c6_cpt_duration_table 45).2.1.mpr (by omega),
   (c6_cpt_duration_table 60).2.2.1.mpr (by omega),
   (c6_cpt_duration_table 60).2.2.2.2.1 (by omega),
   (c6_cpt_duration_table 60).2.2.2.2.2⟩

/-! ## Claim C7 -/

/-- C7: on an analysis with every finding false, both fix_pdf routines
return immediately with no events at all (in particular no save, so no
output file), and both callers record corrections_made = false. -/
theorem c7_all_false_noop (path : String) (a : Analysis) (o : Oracle)
    (h1 : a.date_issue.found = false) (h2 : a.cpt_issue.found = false)
    (h3 : a.goals_issue.found = false)
    (h4 : a.supervision_issue.found = false) :
    fixPdfTherapy path a o = ⟨[], false, false⟩ ∧
    fixPdfBatch path a o = ⟨[], false, false⟩ ∧
    correctionsMadeTherapy path a o = false ∧
    correctionsMadeBatch path a o = false := by
  have hg : therapyGuard a = false := by
    simp [therapyGuard, h1, h2, h3, h4]
  have hgb : batchGuard a = false := by
    simp [batchGuard, h1, h2, h3]
  have hn : needsFixingTherapy a = false := by
    simp [needsFixingTherapy, h1, h2, h3, h4]
  have hnb : needsFixingBatch a = false := by
    simp [needsFixingBatch, h1, h2, h3]
  refine ⟨?_, ?_, ?_, ?_⟩
  · simp [fixPdfTherapy, hg]
  · simp [fixPdfBatch, hgb]
  · simp [correctionsMadeTherapy, hn]
  · simp [correctionsMadeBatch, hnb]

theorem c7_all_false_noop_witness :
    fixPdfTherapy "note.pdf" allFalseAnalysis (oracleHit "90834") =
      ⟨[], false, false⟩ ∧
    fixPdfBatch "note.pdf" allFalseAnalysis (oracleHit "90834") =
      ⟨[], false, false⟩ ∧
    correctionsMadeTherapy "note.pdf" allFalseAnalysis (oracleHit "90834") =
      false ∧
    correctionsMadeBatch "note.pdf" allFalseAnalysis (oracleHit "90834") =
      false :=
  c7_all_false_noop "note.pdf" allFalseAnalysis (oracleHit "90834")
    rfl rfl rfl rfl

/-! ## Claim C8 -/

/-- C8: every patch block uses only the first bounding box of the locator
result: its events are exactly one redaction of the padded first box and
one rewrite at the first box, and the result does not depend on the tail of
the returned sequence, so later occurrences of the anchor text are never
touched; the goals block likewise keeps only the first box of the header
loop and of the prognosis anchor. -/
theorem c8_first_box_only :
    (∀ (f : ℚ) (p : Nat) (s : String) (r : Rect) (rest : List Rect),
      dateCore f p s (r :: rest) =
        ([Ev.redact p (dateRedactRect r),
          Ev.insertText p r.x0 (baselineY r) s f "helv"], true) ∧
      dateCore f p s (r :: rest) = dateCore f p s [r]) ∧
    (∀ (p : Nat) (s : String) (r : Rect) (rest : List Rect),
      cptCore p s (r :: rest) =
        ([Ev.redact p (cptRedactRect r),
          Ev.insertText p r.x0 (baselineY r) s smallFont "helv"], true) ∧
      cptCore p s (r :: rest) = cptCore p s [r]) ∧
    (∀ (p : Nat) (n c : String) (r : Rect) (rest : List Rect),
      supCore p n c (r :: rest) =
        ([Ev.redact p (supRedactRect r),
          Ev.insertText p r.x0 (baselineY r)
            ("Rendered by: " ++ n ++ ", " ++ c) smallFont
            "Helvetica-BoldOblique"], true) ∧
      supCore p n c (r :: rest) = supCore p n c [r]) ∧
    (∀ (p : Nat) (o : Oracle) (g r : Rect) (rest : List Rect),
      goalsWithPrognosis p o g (r :: rest) = goalsWithPrognosis p o g [r]) ∧
    (∀ (r : Rect) (rest : List Rect) (t : String) (ts : List String),
      findFirstRect (fun _ => .ok (r :: rest)) (t :: ts) = .ok (some r)) :=
  ⟨fun _ _ _ _ _ => ⟨rfl, rfl⟩, fun _ _ _ _ => ⟨rfl, rfl⟩,
   fun _ _ _ _ _ => ⟨rfl, rfl⟩, fun _ _ _ _ _ => rfl, fun _ _ _ _ => rfl⟩

/-! ## Claim C9 -/

/-- C9: an empty locator result is not an error and not a patch: every
block core maps an empty box list to no events and no fix, the goal-header
loop yields none, a page on which every search comes back empty contributes
no event in either tool (and the run stays exception free), and silencing a
CPT finding whose searches all come back empty does not change the page
step at all, so the remaining findings are still processed as before. -/
theorem c9_empty_locator_skip :
    (∀ (f : ℚ) (p : Nat) (s : String), dateCore f p s [] = ([], false)) ∧
    (∀ (p : Nat) (s : String), cptCore p s [] = ([], false)) ∧
    (∀ (p : Nat) (n c : String), supCore p n c [] = ([], false)) ∧
    (∀ (p : Nat) (o : Oracle) (g : Rect),
      goalsWithPrognosis p o g [] = .ok [] false) ∧
    (∀ ts : List String, findFirstRect (fun _ => .ok []) ts = .ok none) ∧
    (∀ (a : Analysis) (o : Oracle) (p : Nat),
      pageStepTherapy a { o with search_for := fun _ _ => .ok [] } p =
        .ok [] false) ∧
    (∀ (a : Analysis) (o : Oracle) (p : Nat),
      pageStepBatch a { o with search_for := fun _ _ => .ok [] } p =
        .ok [] false) ∧
    (∀ (a : Analysis) (o : Oracle) (p : Nat),
      pageStepTherapy a
        { o with search_for := fun q s =>
            if s = a.cpt_issue.current_code then .ok [] else o.search_for q s }
        p =
      pageStepTherapy
        { a with cpt_issue := { a.cpt_issue with found := false } }
        { o with search_for := fun q s =>
            if s = a.cpt_issue.current_code then .ok [] else o.search_for q s }
        p) := by
  have hfind : ∀ ts : List String,
      findFirstRect (fun _ => .ok []) ts = .ok none := by
    intro ts
    induction ts with
    | nil => rfl
    | cons t ts ih => simpa [findFirstRect] using ih
  refine ⟨fun _ _ _ => rfl, fun _ _ => rfl, fun _ _ _ => rfl,
    fun _ _ _ => rfl, hfind, ?_, ?_, ?_⟩
  · intro a o p
    have hd : fixDateOnPage 9 p a.date_issue
        { o with search_for := fun _ _ => .ok [] } = .ok [] false := by
      unfold fixDateOnPage
      split
      · split <;> rfl
      · rfl
    have hc : fixCptTherapyOnPage p a.cpt_issue
        { o with search_for := fun _ _ => .ok [] } = .ok [] false := by
      unfold fixCptTherapyOnPage
      split
      · split <;> rfl
      · rfl
    have hs : fixSupOnPage p a.supervision_issue
        { o with search_for := fun _ _ => .ok [] } = .ok [] false := by
      unfold fixSupOnPage
      split
      · split <;> rfl
      · rfl
    unfold pageStepTherapy
    simp [hd, hc, hs, M.andThen]
  · intro a o p
    have hd : fixDateOnPage smallFont p a.date_issue
        { o with search_for := fun _ _ => .ok [] } = .ok [] false := by
      unfold fixDateOnPage
      split
      · split <;> rfl
      · rfl
    have hc : fixCptBatchOnPage p a.cpt_issue
        { o with search_for := fun _ _ => .ok [] } = .ok [] false := by
      unfold fixCptBatchOnPage
      split
      · split <;> rfl
      · rfl
    have hg : fixGoalsOnPage p a.goals_issue
        { o with search_for := fun _ _ => .ok [] } = .ok [] false := by
      unfold fixGoalsOnPage
      split
      · split
        · rw [show ({ o with search_for := fun _ _ => .ok [] } :
              Oracle).search_for p = fun _ => .ok [] from rfl, hfind]
        · rfl
      · rfl
    unfold pageStepBatch
    simp [hd, hc, hg, M.andThen]
  · intro a o p
    have hL : fixCptTherapyOnPage p a.cpt_issue
        { o with search_for := fun q s =>
            if s = a.cpt_issue.current_code then .ok [] else o.search_for q s }
        = .ok [] false := by
      unfold fixCptTherapyOnPage
      split
      · split
        · show liftSearch (if a.cpt_issue.current_code =
              a.cpt_issue.current_code then Except.ok [] else
              o.search_for p a.cpt_issue.current_code)
            (cptCore p a.cpt_issue.correct_code) = .ok [] false
          rw [if_pos rfl]
          rfl
        · rfl
      · rfl
    unfold pageStepTherapy
    simp only [hL]
    rfl

/-! ## Claim C10 -/

/-- C10: the single-note tool has no goals patch: on an analysis where only
goals_issue.found is true, its fix_pdf opens and closes the document but
emits no redaction, insertion or save (so no page is modified and no file
is written), returns false, and the caller records
corrections_made = false. -/
theorem c10_goals_only_no_patch (path : String) (a : Analysis) (o : Oracle)
    (hg : a.goals_issue.found = true) (h1 : a.date_issue.found = false)
    (h2 : a.cpt_issue.found = false)
    (h4 : a.supervision_issue.found = false) :
    fixPdfTherapy path a o = ⟨[Ev.openDoc, Ev.closeDoc], false, false⟩ ∧
    correctionsMadeTherapy path a o = false := by
  have hguard : therapyGuard a = true := by
    simp [therapyGuard, hg]
  have hstep : ∀ p, pageStepTherapy a o p = .ok [] false := by
    intro p
    have hd : fixDateOnPage 9 p a.date_issue o = .ok [] false := by
      unfold fixDateOnPage
      rw [if_neg]
      simp [h1]
    have hc : fixCptTherapyOnPage p a.cpt_issue o = .ok [] false := by
      unfold fixCptTherapyOnPage
      rw [if_neg]
      simp [h2]
    have hs : fixSupOnPage p a.supervision_issue o = .ok [] false := by
      unfold fixSupOnPage
      rw [if_neg]
      simp [h4]
    unfold pageStepTherapy
    simp [hd, hc, hs, M.andThen]
  have hpages : pagesRunTherapy a o = .ok [] false := by
    unfold pagesRunTherapy
    exact pagesFold_skip hstep _ _
  have hfix := fixPdfTherapy_of_pages_ok path hguard hpages
  have hfix2 : fixPdfTherapy path a o =
      ⟨[Ev.openDoc, Ev.closeDoc], false, false⟩ := by
    rw [hfix]
    rfl
  refine ⟨hfix2, ?_⟩
  unfold correctionsMadeTherapy
  rw [hfix2]
  simp

theorem c10_goals_only_no_patch_witness :
    fixPdfTherapy "note.pdf" goalsOnlyAnalysis (oracleHit "Goal #1") =
      ⟨[Ev.openDoc, Ev.closeDoc], false, false⟩ ∧
    correctionsMadeTherapy "note.pdf" goalsOnlyAnalysis
      (oracleHit "Goal #1") = false :=
  c10_goals_only_no_patch "note.pdf" goalsOnlyAnalysis (oracleHit "Goal #1")
    rfl rfl rfl rfl

/-! ## Claim C1 -/

/-- C1 counterexample: the batch tool's fix_pdf has no guard against a CPT
code that is already correct: on this analysis with cpt_issue.found = true
and current_code equal to correct_code, its run redacts the located code
box and re-inserts the code, contradicting the claim that no CPT redaction
or insertion happens in that case. -/
theorem c1_batch_cpt_guard_counterexample :
    cptEqualAnalysis.cpt_issue.found = true ∧
    cptEqualAnalysis.cpt_issue.current_code =
      cptEqualAnalysis.cpt_issue.correct_code ∧
    (fixPdfBatch "note.pdf" cptEqualAnalysis (oracleHit "90834")).events =
      [Ev.openDoc, Ev.redact 0 (cptRedactRect box1),
       Ev.insertText 0 box1.x0 (baselineY box1) "90834" smallFont "helv",
       Ev.getText 0, Ev.saveDoc "note_CORRECTED.pdf", Ev.closeDoc] ∧
    Ev.redact 0 (cptRedactRect box1) ∈
      (fixPdfBatch "note.pdf" cptEqualAnalysis (oracleHit "90834")).events ∧
    Ev.insertText 0 box1.x0 (baselineY box1) "90834" smallFont "helv" ∈
      (fixPdfBatch "note.pdf" cptEqualAnalysis (oracleHit "90834")).events := by
  have hev : (fixPdfBatch "note.pdf" cptEqualAnalysis
      (oracleHit "90834")).events =
      [Ev.openDoc, Ev.redact 0 (cptRedactRect box1),
       Ev.insertText 0 box1.x0 (baselineY box1) "90834" smallFont "helv",
       Ev.getText 0, Ev.saveDoc "note_CORRECTED.pdf", Ev.closeDoc] := rfl
  refine ⟨rfl, rfl, hev, ?_, ?_⟩
  · rw [hev]
    exact .tail _ (.head _)
  · rw [hev]
    exact .tail _ (.tail _ (.head _))

/-- C1 amended: the guard holds in the single-note tool only: whenever
current_code equals correct_code, its CPT block performs no search, no
redaction and no insertion on any page, and the whole page step behaves
exactly as if the CPT finding were absent.  (The batch tool applies the CPT
fix whenever the code is non-empty, even when it is already correct, as the
counterexample shows.) -/
theorem c1_therapy_cpt_guard :
    (∀ (p : Nat) (c : CptIssue) (o : Oracle),
      c.current_code = c.correct_code →
      fixCptTherapyOnPage p c o = .ok [] false) ∧
    (∀ (a : Analysis) (o : Oracle) (p : Nat),
      a.cpt_issue.current_code = a.cpt_issue.correct_code →
      pageStepTherapy a o p =
        pageStepTherapy
          { a with cpt_issue := { a.cpt_issue with found := false } } o p) := by
  have part1 : ∀ (p : Nat) (c : CptIssue) (o : Oracle),
      c.current_code = c.correct_code →
      fixCptTherapyOnPage p c o = .ok [] false := by
    intro p c o h
    unfold fixCptTherapyOnPage
    split
    · split
      · rename_i hcond
        exact absurd h hcond.2.2
      · rfl
    · rfl
  refine ⟨part1, ?_⟩
  intro a o p h
  have hL : fixCptTherapyOnPage p a.cpt_issue o = .ok [] false :=
    part1 p a.cpt_issue o h
  unfold pageStepTherapy
  simp only [hL]
  rfl

theorem c1_therapy_cpt_guard_witness :
    fixCptTherapyOnPage 0 cptEqualAnalysis.cpt_issue (oracleHit "90834") =
      .ok [] false ∧
    pageStepTherapy cptEqualAnalysis (oracleHit "90834") 0 =
      pageStepTherapy
        { cptEqualAnalysis with
          cpt_issue := { cptEqualAnalysis.cpt_issue with found := false } }
        (oracleHit "90834") 0 :=
  ⟨c1_therapy_cpt_guard.1 0 cptEqualAnalysis.cpt_issue (oracleHit "90834")
      rfl,
   c1_therapy_cpt_guard.2 cptEqualAnalysis (oracleHit "90834") 0 rfl⟩

/-! ## Claim C2 -/

/-- C2 counterexample: when the locator raises while patching, the
catch-all handler of the single-note tool's fix_pdf returns false without
closing the document: the run's events are the open alone, with no close,
so the handle is not released on this exit path. -/
theorem c2_handle_not_closed_counterexample :
    fixPdfTherapy "note.pdf" dateOnlyAnalysis oracleErr =
      ⟨[Ev.openDoc], false, true⟩ ∧
    Ev.openDoc ∈ (fixPdfTherapy "note.pdf" dateOnlyAnalysis oracleErr).events ∧
    Ev.closeDoc ∉
      (fixPdfTherapy "note.pdf" dateOnlyAnalysis oracleErr).events := by
  refine ⟨rfl, ?_, ?_⟩ <;> decide

/-- C2 amended: the handle is closed on every exit path on which no
exception fired: whenever the run of either fix_pdf reports no caught
exception, the document was opened exactly when it was closed; on the
caught-exception path the close can be missing, as the counterexample
shows. -/
theorem c2_close_on_normal_exit (path : String) (a : Analysis) (o : Oracle) :
    ((fixPdfTherapy path a o).raised = false →
      (Ev.openDoc ∈ (fixPdfTherapy path a o).events ↔
        Ev.closeDoc ∈ (fixPdfTherapy path a o).events)) ∧
    ((fixPdfBatch path a o).raised = false →
      (Ev.openDoc ∈ (fixPdfBatch path a o).events ↔
        Ev.closeDoc ∈ (fixPdfBatch path a o).events)) := by
  constructor
  · intro hr
    by_cases hg : therapyGuard a = true
    · cases hp : pagesRunTherapy a o with
      | ok evs v =>
        have hfix := fixPdfTherapy_of_pages_ok path hg hp
        rw [hfix]
        constructor <;> intro
        · show Ev.closeDoc ∈ Ev.openDoc :: (evs ++ therapyTailEvs path v)
          cases v <;>
            simp [therapyTailEvs, List.mem_cons, List.mem_append]
        · exact List.mem_cons_self _ _
      | exn evs =>
        have hfix := fixPdfTherapy_of_pages_exn path hg hp
        rw [hfix] at hr
        exact absurd hr (by intro hc; exact Bool.noConfusion hc)
    · have hg2 : therapyGuard a = false := by
        cases h2 : therapyGuard a
        · rfl
        · exact absurd h2 hg
      have : fixPdfTherapy path a o = ⟨[], false, false⟩ := by
        simp [fixPdfTherapy, hg2]
      rw [this]
      constructor <;> intro h <;> cases h
  · intro hr
    by_cases hg : batchGuard a = true
    · cases hp : pagesRunBatch a o with
      | ok evs v =>
        have hfix := fixPdfBatch_of_pages_ok path hg hp
        rw [hfix]
        constructor <;> intro
        · show Ev.closeDoc ∈ Ev.openDoc :: (evs ++ batchTailEvs path o v)
          cases v <;>
            simp [batchTailEvs, List.mem_cons, List.mem_append]
        · exact List.mem_cons_self _ _
      | exn evs =>
        have hfix := fixPdfBatch_of_pages_exn path hg hp
        rw [hfix] at hr
        exact absurd hr (by intro hc; exact Bool.noConfusion hc)
    · have hg2 : batchGuard a = false := by
        cases h2 : batchGuard a
        · rfl
        · exact absurd h2 hg
      have : fixPdfBatch path a o = ⟨[], false, false⟩ := by
        simp [fixPdfBatch, hg2]
      rw [this]
      constructor <;> intro h <;> cases h

theorem c2_close_on_normal_exit_witness :
    (Ev.openDoc ∈ (fixPdfTherapy "note.pdf" dateOnlyAnalysis
        (oracleHit "07/02/2025 11:10 am")).events ↔
      Ev.closeDoc ∈ (fixPdfTherapy "note.pdf" dateOnlyAnalysis
        (oracleHit "07/02/2025 11:10 am")).events) ∧
    (Ev.openDoc ∈ (fixPdfBatch "note.pdf" dateOnlyAnalysis
        (oracleHit "07/02/2025 11:10 am")).events ↔
      Ev.closeDoc ∈ (fixPdfBatch "note.pdf" dateOnlyAnalysis
        (oracleHit "07/02/2025 11:10 am")).events) :=
  ⟨(c2_close_on_normal_exit "note.pdf" dateOnlyAnalysis
      (oracleHit "07/02/2025 11:10 am")).1 rfl,
   (c2_close_on_normal_exit "note.pdf" dateOnlyAnalysis
      (oracleHit "07/02/2025 11:10 am")).2 rfl⟩

/-! ## Claim C3 -/

/-- C3 counterexample: the single-note tool replaces the original by
save-to-temp, then remove, then rename; after the remove and before the
rename the original path holds neither the original nor the corrected
content (it is empty), so an intermediate state violating the claimed
atomicity exists: here after the first six of the seven events. -/
theorem c3_nonatomic_replace_counterexample :
    fsOriginal "note.pdf" = some "original" ∧
    (fixPdfTherapy "note.pdf" dateOnlyAnalysis
      (oracleHit "07/02/2025 11:10 am")).result = true ∧
    applyEvents fsOriginal
      ((fixPdfTherapy "note.pdf" dateOnlyAnalysis
        (oracleHit "07/02/2025 11:10 am")).events.take 6) "note.pdf" =
      none ∧
    applyEvents fsOriginal
      (fixPdfTherapy "note.pdf" dateOnlyAnalysis
        (oracleHit "07/02/2025 11:10 am")).events "note.pdf" =
      some "patched" := by
  refine ⟨rfl, rfl, ?_, ?_⟩ <;> rfl

/-- C3 amended: on every run of the single-note tool's fix_pdf that
finishes without an exception and reports success, and for every starting
file system, the original path finally holds the patched document and the
temp sibling is gone; but the event sequence has a proper prefix after
which the original path holds nothing, because the original is removed
before the temp is renamed (the replacement is save-temp, remove, rename,
not an atomic rename). -/
theorem c3_temp_remove_rename (path : String) (a : Analysis) (o : Oracle)
    (fs : String → Option String)
    (hr : (fixPdfTherapy path a o).raised = false)
    (hres : (fixPdfTherapy path a o).result = true)
    (htmp : strReplace path ".pdf" "_TEMP_FIXED.pdf" ≠ path) :
    applyEvents fs (fixPdfTherapy path a o).events path = some "patched" ∧
    applyEvents fs (fixPdfTherapy path a o).events
      (strReplace path ".pdf" "_TEMP_FIXED.pdf") = none ∧
    ∃ pre suf, (fixPdfTherapy path a o).events = pre ++ suf ∧ suf ≠ [] ∧
      applyEvents fs pre path = none := by
  by_cases hg : therapyGuard a = true
  · cases hp : pagesRunTherapy a o with
    | ok evs v =>
      have hfix := fixPdfTherapy_of_pages_ok path hg hp
      have hv : v = true := by
        rw [hfix] at hres
        exact hres
      subst hv
      have hpage : pageOnly evs := by
        have h2 := pagesRunTherapy_pageOnly a o
        rw [hp] at h2
        exact h2
      set tmp := strReplace path ".pdf" "_TEMP_FIXED.pdf" with htmpdef
      have hevs : (fixPdfTherapy path a o).events =
          (Ev.openDoc :: evs) ++
            [Ev.saveDoc tmp, Ev.closeDoc, Ev.removeFile path,
             Ev.renameFile tmp path] := by
        rw [hfix]
        simp [therapyTailEvs]
      have hprefix : ∀ g : String → Option String,
          applyEvents g (Ev.openDoc :: evs) = g := by
        intro g
        show applyEvents (fsStep g Ev.openDoc) evs = g
        exact applyEvents_pageOnly g hpage
      have hpathtmp : ¬(path = tmp) := fun h => htmp h.symm
      refine ⟨?_, ?_, ?_⟩
      · rw [hevs, applyEvents_append, hprefix]
        show (fun q => if q = path then
            (fun q2 => if q2 = path then none else
              (fun q3 => if q3 = tmp then some "patched" else fs q3) q2) tmp
          else if q = tmp then none else
            (fun q2 => if q2 = path then none else
              (fun q3 => if q3 = tmp then some "patched" else fs q3) q2) q)
          path = some "patched"
        simp [htmp]
      · rw [hevs, applyEvents_append, hprefix]
        show (fun q => if q = path then
            (fun q2 => if q2 = path then none else
              (fun q3 => if q3 = tmp then some "patched" else fs q3) q2) tmp
          else if q = tmp then none else
            (fun q2 => if q2 = path then none else
              (fun q3 => if q3 = tmp then some "patched" else fs q3) q2) q)
          tmp = none
        simp [hpathtmp]
      · refine ⟨(Ev.openDoc :: evs) ++
          [Ev.saveDoc tmp, Ev.closeDoc, Ev.removeFile path],
          [Ev.renameFile tmp path], ?_, ?_, ?_⟩
        · rw [hevs]
          simp
        · intro h
          exact List.noConfusion h
        · rw [applyEvents_append, hprefix]
          show (fun q2 => if q2 = path then none else
              (fun q3 => if q3 = tmp then some "patched" else fs q3) q2)
            path = none
          simp
    | exn evs =>
      have hfix := fixPdfTherapy_of_pages_exn path hg hp
      rw [hfix] at hr
      exact absurd hr (by intro hc; exact Bool.noConfusion hc)
  · have hg2 : therapyGuard a = false := by
      cases h2 : therapyGuard a
      · rfl
      · exact absurd h2 hg
    have : fixPdfTherapy path a o = ⟨[], false, false⟩ := by
      simp [fixPdfTherapy, hg2]
    rw [this] at hres
    exact absurd hres (by intro hc; exact Bool.noConfusion hc)

theorem c3_temp_remove_rename_witness :
    applyEvents fsOriginal
      (fixPdfTherapy "note.pdf" dateOnlyAnalysis
        (oracleHit "07/02/2025 11:10 am")).events "note.pdf" =
      some "patched" ∧
    applyEvents fsOriginal
      (fixPdfTherapy "note.pdf" dateOnlyAnalysis
        (oracleHit "07/02/2025 11:10 am")).events "note_TEMP_FIXED.pdf" =
      none ∧
    ∃ pre suf,
      (fixPdfTherapy "note.pdf" dateOnlyAnalysis
        (oracleHit "07/02/2025 11:10 am")).events = pre ++ suf ∧
      suf ≠ [] ∧ applyEvents fsOriginal pre "note.pdf" = none := by
  have h := c3_temp_remove_rename "note.pdf" dateOnlyAnalysis
    (oracleHit "07/02/2025 11:10 am") fsOriginal rfl rfl (by decide)
  exact h

/-! ## Claim C4 -/

/-- C4 counterexample: the batch tool's verification does not flag the
absence of a date pattern: on this run the re-extracted page 0 text
contains no recognizable date, yet verification passes and the document is
saved under the plain `_CORRECTED` name instead of the `NEEDS_REVIEW`
name. -/
theorem c4_missing_date_unflagged_counterexample :
    hasDateFormatMatch (oracleHit "07/02/2025 11:10 am").pageText0 = false ∧
    verificationPassed (oracleHit "07/02/2025 11:10 am").pageText0 = true ∧
    Ev.saveDoc "note_CORRECTED.pdf" ∈
      (fixPdfBatch "note.pdf" dateOnlyAnalysis
        (oracleHit "07/02/2025 11:10 am")).events ∧
    Ev.saveDoc "note_CORRECTED_NEEDS_REVIEW.pdf" ∉
      (fixPdfBatch "note.pdf" dateOnlyAnalysis
        (oracleHit "07/02/2025 11:10 am")).events := by
  refine ⟨rfl, rfl, ?_, ?_⟩ <;> decide

/-- C4 amended: after patching, the batch tool re-extracts the text of
page 0 and saves in every case, appending the NEEDS_REVIEW marker exactly
when verification flags the text; but the flag is raised only by the
credential corruption signature: any text without the concatenated
credential artifact passes verification, whether or not it contains a date
pattern. -/
theorem c4_verification_flag (path : String) (a : Analysis) (o : Oracle)
    (hr : (fixPdfBatch path a o).raised = false)
    (hres : (fixPdfBatch path a o).result = true) :
    Ev.getText 0 ∈ (fixPdfBatch path a o).events ∧
    Ev.saveDoc (batchOutPath path o) ∈ (fixPdfBatch path a o).events ∧
    (∀ t : String, strContains t "LCSWa" = false →
      verificationPassed t = true) := by
  have hflag : ∀ t : String, strContains t "LCSWa" = false →
      verificationPassed t = true := by
    intro t h
    unfold verificationPassed
    rw [h, Bool.and_false]
    rfl
  by_cases hg : batchGuard a = true
  · cases hp : pagesRunBatch a o with
    | ok evs v =>
      have hfix := fixPdfBatch_of_pages_ok path hg hp
      have hv : v = true := by
        rw [hfix] at hres
        exact hres
      subst hv
      have hevs : (fixPdfBatch path a o).events =
          Ev.openDoc :: (evs ++
            [Ev.getText 0, Ev.saveDoc (batchOutPath path o),
             Ev.closeDoc]) := by
        rw [hfix]
        simp [batchTailEvs]
      refine ⟨?_, ?_, hflag⟩
      · rw [hevs]
        simp [List.mem_cons, List.mem_append]
      · rw [hevs]
        simp [List.mem_cons, List.mem_append]
    | exn evs =>
      have hfix := fixPdfBatch_of_pages_exn path hg hp
      rw [hfix] at hr
      exact absurd hr (by intro hc; exact Bool.noConfusion hc)
  · have hg2 : batchGuard a = false := by
      cases h2 : batchGuard a
      · rfl
      · exact absurd h2 hg
    have : fixPdfBatch path a o = ⟨[], false, false⟩ := by
      simp [fixPdfBatch, hg2]
    rw [this] at hres
    exact absurd hres (by intro hc; exact Bool.noConfusion hc)

theorem c4_verification_flag_witness :
    Ev.getText 0 ∈ (fixPdfBatch "note.pdf" dateOnlyAnalysis
      (oracleHit "07/02/2025 11:10 am")).events ∧
    Ev.saveDoc (batchOutPath "note.pdf"
        (oracleHit "07/02/2025 11:10 am")) ∈
      (fixPdfBatch "note.pdf" dateOnlyAnalysis
        (oracleHit "07/02/2025 11:10 am")).events ∧
    verificationPassed "no dates in this text" = true := by
  have h := c4_verification_flag "note.pdf" dateOnlyAnalysis
    (oracleHit "07/02/2025 11:10 am") rfl rfl
  exact ⟨h.1, h.2.1, h.2.2 "no dates in this text" (by decide)⟩

/-! ## Claim C5 -/

/-- Whether the strict parse of a response succeeds. -/
def jsonParseOk (s : String) : Bool :=
  match jsonLoads s with
  | .ok _ => true
  | .error _ => false

/-- C5 counterexample: on this response the strict parse fails, the
best-effort fragment extraction finds the brace-delimited fragment, the
fragment itself fails to parse, and the second `json.loads` is outside any
handler, so the call raises to its caller instead of returning a
parse-error result. -/
theorem c5_fragment_reparse_raises_counterexample :
    jsonParseOk "\x7bbad\x7d" = false ∧
    extractBraced "\x7bbad\x7d" = some "\x7bbad\x7d" ∧
    (parseAnalysisResponse "\x7bbad\x7d").isRaised = true := by
  refine ⟨rfl, rfl, rfl⟩

/-- C5 amended: when the strict parse fails, one brace-fragment extraction
is attempted; when the strict parse succeeds, or when no brace-delimited
fragment exists (in which case the explicit parse-error result is
returned), the call never raises; but when an extracted fragment itself
fails to parse the call raises, as the counterexample shows. -/
theorem c5_parse_fallback (content : String) :
    (jsonParseOk content = true →
      (parseAnalysisResponse content).isRaised = false) ∧
    (extractBraced content = none →
      (parseAnalysisResponse content).isRaised = false) ∧
    (jsonParseOk content = false → extractBraced content = none →
      parseAnalysisResponse content = .parseErrorResult) := by
  refine ⟨?_, ?_, ?_⟩
  · intro h
    unfold parseAnalysisResponse
    unfold jsonParseOk at h
    cases hj : jsonLoads content with
    | ok v => rfl
    | error e =>
      rw [hj] at h
      exact absurd h (by intro hc; exact Bool.noConfusion hc)
  · intro h
    unfold parseAnalysisResponse
    cases hj : jsonLoads content with
    | ok v => rfl
    | error e =>
      rw [h]
      rfl
  · intro h1 h2
    unfold parseAnalysisResponse
    cases hj : jsonLoads content with
    | ok v =>
      unfold jsonParseOk at h1
      rw [hj] at h1
      exact absurd h1 (by intro hc; exact Bool.noConfusion hc)
    | error e =>
      rw [h2]

theorem c5_parse_fallback_witness :
    (parseAnalysisResponse "plain refusal text").isRaised = false ∧
    parseAnalysisResponse "plain refusal text" = .parseErrorResult :=
  ⟨(c5_parse_fallback "plain refusal text").2.1 rfl,
   (c5_parse_fallback "plain refusal text").2.2 rfl rfl⟩
